import Mathlib

/-! Verification development for a credential store (auth.py) and a bulk
data loader (data_layer.py).  Python string primitives are embedded as
functions on character lists; the external bcrypt library is modelled by
its documented contract; sqlite execution of one statement is modelled by
an abstract execution outcome, while the pure control flow of each
repository function is translated directly from the source. -/

/-! ## Python string primitives -/

/-- Model of Python str.split with a one-character separator, working on
character lists.  Splitting the empty list yields one empty field, exactly
as in Python. -/
def splitCharAux (sep : Char) : List Char → List (List Char)
  | [] => [[]]
  | c :: cs =>
    let r := splitCharAux sep cs
    if c == sep then [] :: r
    else (c :: r.headD []) :: r.tail

/-- Model of Python str.split(sep) for a one-character sep. -/
def pySplit (sep : Char) (s : String) : List String :=
  (splitCharAux sep s.data).map String.mk

/-- Model of Python str.strip(): drop whitespace from both ends. -/
def pyStrip (s : String) : String :=
  String.mk (((s.data.dropWhile Char.isWhitespace).reverse.dropWhile
    Char.isWhitespace).reverse)

/-- Model of Python str.lower() for the ASCII statements used here. -/
def pyLower (s : String) : String :=
  String.mk (s.data.map Char.toLower)

/-! ## Credential store (auth.py)

The bcrypt library is external to the repository, so its two primitives are
modelled from their documented contract: hashpw returns an opaque string
that encodes the randomly generated salt together with a digest that
depends on the password and the salt, and checkpw recovers the salt
embedded in a stored hash, recomputes the hash of the candidate password
under that salt and compares the two strings.  The model writes the salt in
unary followed by a sanitized copy of the password.  One-wayness and
collision resistance of the real digest play no role in any claim; what the
model captures faithfully is determinism, dependence of the output on the
salt, and the fact that a real bcrypt output never contains the comma
delimiter of the user store nor whitespace. -/

/-- Characters that the modelled digest may not contain are replaced. -/
def escapeChar (c : Char) : Char :=
  if c == ',' || c == '+' || c == '$' || c.isWhitespace then '.' else c

/-- Model of bcrypt.hashpw: the salt (a natural number standing for the
random value produced by bcrypt.gensalt) written in unary, a separator, and
the sanitized password as the digest part. -/
def bcryptHashpw (pw : String) (salt : Nat) : String :=
  String.mk (List.replicate salt '+' ++ '$' :: pw.data.map escapeChar)

/-- Model of bcrypt.checkpw: recover the salt encoded in the stored hash,
recompute and compare. -/
def bcryptCheckpw (pw h : String) : Bool :=
  bcryptHashpw pw ((h.data.takeWhile (fun c => c == '+')).length) == h

/-- auth.py hash_password: encode, hash with a fresh salt, decode.  The
encode and decode steps are identities in the model; the salt produced by
bcrypt.gensalt is the explicit second argument. -/
def hash_password (plain_text_password : String) (salt : Nat) : String :=
  bcryptHashpw plain_text_password salt

/-- auth.py verify_password: encode both strings and delegate to
bcrypt.checkpw. -/
def verify_password (plain_text_password hashed_password : String) : Bool :=
  bcryptCheckpw plain_text_password hashed_password

/-- The one exception auth.py can raise while scanning the user store: the
ValueError produced when a line does not split into exactly two fields. -/
inductive AuthError : Type
  | valueError
deriving DecidableEq

/-- Model of the Python tuple unpacking a, b = l for a list of fields:
succeeds exactly on two-element lists, raises ValueError otherwise. -/
def unpack2 (l : List String) : Except AuthError (String × String) :=
  match l with
  | [a, b] => .ok (a, b)
  | _ => .error AuthError.valueError

/-- The line scan of auth.py user_exists: for each line, strip it, split it
on the comma, unpack into exactly two fields and compare the first with the
requested username. -/
def user_exists_loop (username : String) : List String → Except AuthError Bool
  | [] => .ok false
  | line :: rest =>
    match unpack2 (pySplit ',' (pyStrip line)) with
    | .error e => .error e
    | .ok (stored_username, _) =>
      if stored_username == username then .ok true
      else user_exists_loop username rest

/-- auth.py user_exists.  The user store file is modelled as
Option (List String): none when the file does not exist, some lines for its
list of lines (without trailing newlines). -/
def user_exists (store : Option (List String)) (username : String) :
    Except AuthError Bool :=
  match store with
  | none => .ok false
  | some lines => user_exists_loop username lines

/-- auth.py register_user: the returned Bool is the value of the Python
function (False printed as the already-exists error, True as success) and
the second component is the user store after the call; opening the file in
append mode creates it when absent. -/
def register_user (store : Option (List String)) (username password : String)
    (salt : Nat) : Except AuthError (Bool × Option (List String)) :=
  match user_exists store username with
  | .error e => .error e
  | .ok true => .ok (false, store)
  | .ok false =>
    let hashed := hash_password password salt
    .ok (true, some (store.getD [] ++ [username ++ "," ++ hashed]))

/-- The four observable outcomes of auth.py login_user, one per print/return
branch of the source. -/
inductive LoginResult : Type
  | success
  | invalidPassword
  | userNotFound
  | noUsersYet
deriving DecidableEq

/-- The line scan of auth.py login_user. -/
def login_loop (username password : String) :
    List String → Except AuthError LoginResult
  | [] => .ok LoginResult.userNotFound
  | line :: rest =>
    match unpack2 (pySplit ',' (pyStrip line)) with
    | .error e => .error e
    | .ok (stored_username, stored_hash) =>
      if stored_username == username then
        if verify_password password stored_hash then .ok LoginResult.success
        else .ok LoginResult.invalidPassword
      else login_loop username password rest

/-- auth.py login_user: returns noUsersYet when the store file does not
exist, otherwise scans the lines. -/
def login_user (store : Option (List String)) (username password : String) :
    Except AuthError LoginResult :=
  match store with
  | none => .ok LoginResult.noUsersYet
  | some lines => login_loop username password lines

/-! ## Bulk loader (data_layer.py) -/

/-- Errors raised by the bulk-insert helpers of data_layer.py. -/
inductive LoaderError : Type
  | missingColumns
  | badJsonRoot
  | badJsonElementInfer
  | badJsonElement
deriving DecidableEq

/-- The shared batching loop of insert_from_csv and insert_from_json:
append each row to the current batch, emit the batch as one executemany
call whenever its length reaches batch_size, and emit the remaining partial
batch at the end.  The result is the list of emitted batches in order. -/
def flushBatches {α : Type} (batch_size : Nat) :
    List α → List α → List (List α)
  | [], batch => if batch.isEmpty then [] else [batch]
  | r :: rest, batch =>
    let b := batch ++ [r]
    if batch_size ≤ b.length then b :: flushBatches batch_size rest []
    else flushBatches batch_size rest b

/-- The inserted counter of the source accumulates cursor.rowcount after
each executemany, which for a multi-row INSERT is the number of rows of the
batch; the function returns that total together with the emitted batches. -/
def runBatchInsert {α : Type} (batch_size : Nat) (rows : List α) :
    Nat × List (List α) :=
  let flushes := flushBatches batch_size rows []
  ((flushes.map List.length).sum, flushes)

/-- Model of csv.DictReader row access composed with row.get(col): the row
dictionary is built by zipping the header with the field values (a
duplicated header name keeps the last value, missing trailing fields read
as None). -/
def dictZipGet (cols : List String) (vals : List String) (k : String) :
    Option String :=
  ((cols.zip vals).reverse.find? (fun p => p.1 == k)).map (fun p => p.2)

/-- data_layer.py _row_values for the DictReader branch: the value tuple of
one CSV row aligned to the column order. -/
def csvRowTuple (cols : List String) (row : List String) :
    List (Option String) :=
  cols.map (dictZipGet cols row)

/-- data_layer.py insert_from_csv.  The parsed CSV file stands in for the
file on disk: one list of fields per record, as csv.reader would yield
them.  The destination table name and the SQL text built from it are not
modelled; the result carries the returned row count and the batches passed
to executemany.  Control flow follows the source: the DictReader branch is
taken exactly when has_header is true and no columns are given (it uses the
first record as the header, skips blank records and returns 0 on an empty
header); the other branch requires an explicit column list when there is no
header and otherwise streams every record of the file as data. -/
def insert_from_csv (csvRows : List (List String))
    (columns : Option (List String)) (has_header : Bool) (batch_size : Nat) :
    Except LoaderError (Nat × List (List (List (Option String)))) :=
  if has_header && columns.isNone then
    let columns_to_use := csvRows.headD []
    if columns_to_use.isEmpty then .ok (0, [])
    else
      let dataRows := csvRows.tail.filter (fun r => !r.isEmpty)
      .ok (runBatchInsert batch_size (dataRows.map (csvRowTuple columns_to_use)))
  else
    match columns with
    | none => .error LoaderError.missingColumns
    | some _ =>
      .ok (runBatchInsert batch_size (csvRows.map (fun r => r.map some)))

/-- Parsed JSON values, as json.load would produce them. -/
inductive JsonVal : Type
  | null
  | bool (b : Bool)
  | num (n : Int)
  | str (s : String)
  | arr (elems : List JsonVal)
  | obj (fields : List (String × JsonVal))

/-- Whether a JSON value is an object (the isinstance(x, dict) test). -/
def JsonVal.isObj : JsonVal → Bool
  | JsonVal.obj _ => true
  | _ => false

/-- Model of dict.get on a parsed JSON object: none when the key is
absent. -/
def dictFind (kvs : List (String × JsonVal)) (k : String) : Option JsonVal :=
  (kvs.find? (fun p => p.1 == k)).map (fun p => p.2)

/-- data_layer.py insert_from_json root handling: a single object becomes a
one-element list, an array is used as is, anything else raises. -/
def jsonDataList : JsonVal → Except LoaderError (List JsonVal)
  | JsonVal.obj kvs => .ok [JsonVal.obj kvs]
  | JsonVal.arr xs => .ok xs
  | _ => .error LoaderError.badJsonRoot

/-- data_layer.py insert_from_json column handling: explicit columns win,
otherwise the key list of the first element, which must be an object. -/
def jsonColumns (columns : Option (List String)) (data_list : List JsonVal) :
    Except LoaderError (List String) :=
  match columns with
  | some cols => .ok cols
  | none =>
    match data_list.headD JsonVal.null with
    | JsonVal.obj kvs => .ok (kvs.map (fun p => p.1))
    | _ => .error LoaderError.badJsonElementInfer

/-- The element loop of insert_from_json: every element must be an object;
its value tuple takes obj.get(col) for each column, so an absent key yields
none (SQL NULL). -/
def collectRows (cols : List String) :
    List JsonVal → Except LoaderError (List (List (Option JsonVal)))
  | [] => .ok []
  | JsonVal.obj kvs :: rest =>
    match collectRows cols rest with
    | .error e => .error e
    | .ok rs => .ok ((cols.map (dictFind kvs)) :: rs)
  | _ :: _ => .error LoaderError.badJsonElement

/-- data_layer.py insert_from_json, with the same result convention as
insert_from_csv: returned count plus the batches passed to executemany. -/
def insert_from_json (data : JsonVal) (columns : Option (List String))
    (batch_size : Nat) :
    Except LoaderError (Nat × List (List (List (Option JsonVal)))) :=
  match jsonDataList data with
  | .error e => .error e
  | .ok data_list =>
    if data_list.isEmpty then .ok (0, [])
    else
      match jsonColumns columns data_list with
      | .error e => .error e
      | .ok columns_to_use =>
        match collectRows columns_to_use data_list with
        | .error e => .error e
        | .ok rows => .ok (runBatchInsert batch_size rows)

/-- The format-error condition stated by the specification for
insert_from_json: the root is neither an object nor an array, or some array
element is not an object. -/
def jsonFormatBad : JsonVal → Bool
  | JsonVal.obj _ => false
  | JsonVal.arr xs => xs.any (fun v => !v.isObj)
  | _ => true

/-- Whether an Except value is a normal return. -/
def exceptIsOk {ε α : Type} : Except ε α → Bool
  | .ok _ => true
  | .error _ => false

/-! ## run_sql (data_layer.py) -/

/-- The outcome of cursor.execute on one statement, abstracting the sqlite
engine: the column names of cursor.description, the raw result rows, and
cursor.rowcount. -/
structure ExecOutcome (α : Type) where
  description : List String
  resultRows : List (List α)
  rowcount : Int

/-- The value returned by run_sql: either fetched rows or a row count. -/
inductive RunSqlResult (α : Type) : Type
  | rows (rs : List (List (String × α)))
  | count (n : Int)

/-- data_layer.py _row_factory: turn a positional row into a mapping keyed
by the column names of cursor.description. -/
def _row_factory {α : Type} (description : List String) (row : List α) :
    List (String × α) :=
  description.zip row

/-- The read-query test of run_sql: sql.strip().lower().startswith("select"). -/
def isSelectSql (sql : String) : Bool :=
  "select".data.isPrefixOf (pyLower (pyStrip sql)).data

/-- data_layer.py run_sql: the first component is the returned value, the
second records whether the connection was committed on this call. -/
def run_sql {α : Type} (out : ExecOutcome α) (sql : String)
    (params : Option (List α)) (fetch : Bool) : RunSqlResult α × Bool :=
  let _ := params
  if isSelectSql sql && fetch then
    (RunSqlResult.rows (out.resultRows.map (_row_factory out.description)),
      false)
  else
    (RunSqlResult.count out.rowcount, true)

/-! ## Helper lemmas on the string primitives -/

theorem string_mk_data (s : String) : String.mk s.data = s := by
  cases s
  rfl

theorem string_data_append (a b : String) : (a ++ b).data = a.data ++ b.data := by
  cases a
  cases b
  rfl

theorem takeWhile_plus_stop (s : Nat) (t : List Char) :
    (List.replicate s '+' ++ '$' :: t).takeWhile (fun c => c == '+') =
      List.replicate s '+' := by
  induction s with
  | zero => rfl
  | succ n ih => exact congrArg (List.cons '+') ih

theorem dropWhile_ws_eq_self (l : List Char)
    (h : ∀ c ∈ l, c.isWhitespace = false) :
    l.dropWhile Char.isWhitespace = l := by
  cases l with
  | nil => rfl
  | cons a t =>
    rw [List.dropWhile_cons, h a (by simp)]
    simp

theorem pyStrip_of_no_ws (s : String)
    (h : ∀ c ∈ s.data, c.isWhitespace = false) : pyStrip s = s := by
  unfold pyStrip
  rw [dropWhile_ws_eq_self s.data h,
    dropWhile_ws_eq_self s.data.reverse
      (fun c hc => h c (List.mem_reverse.mp hc)),
    List.reverse_reverse, string_mk_data]

theorem splitCharAux_ne_nil (sep : Char) (l : List Char) :
    splitCharAux sep l ≠ [] := by
  cases l with
  | nil => simp [splitCharAux]
  | cons c cs =>
    unfold splitCharAux
    by_cases h : (c == sep) = true
    · rw [if_pos h]; simp
    · rw [if_neg h]; simp

theorem splitCharAux_no_sep (sep : Char) (l : List Char)
    (h : ∀ c ∈ l, (c == sep) = false) : splitCharAux sep l = [l] := by
  induction l with
  | nil => rfl
  | cons c cs ih =>
    unfold splitCharAux
    rw [ih (fun x hx => h x (by simp [hx]))]
    rw [if_neg (by rw [h c (by simp)]; simp)]
    rfl

theorem splitCharAux_cons (sep c : Char) (cs : List Char) :
    splitCharAux sep (c :: cs) =
      if c == sep then [] :: splitCharAux sep cs
      else (c :: (splitCharAux sep cs).headD []) :: (splitCharAux sep cs).tail :=
  rfl

theorem splitCharAux_append (sep : Char) (a b : List Char)
    (h : ∀ c ∈ a, (c == sep) = false) :
    splitCharAux sep (a ++ sep :: b) = a :: splitCharAux sep b := by
  induction a with
  | nil =>
    rw [List.nil_append, splitCharAux_cons, if_pos (by simp)]
  | cons c a' ih =>
    have ih' := ih (fun x hx => h x (by simp [hx]))
    rw [List.cons_append, splitCharAux_cons, ih',
      if_neg (by rw [h c (by simp)]; simp)]
    rfl

/-! ## Helper lemmas on the bcrypt model -/

theorem bcryptHashpw_data (pw : String) (salt : Nat) :
    (bcryptHashpw pw salt).data =
      List.replicate salt '+' ++ '$' :: pw.data.map escapeChar := rfl

theorem bcrypt_roundtrip (pw : String) (salt : Nat) :
    bcryptCheckpw pw (bcryptHashpw pw salt) = true := by
  unfold bcryptCheckpw
  rw [bcryptHashpw_data, takeWhile_plus_stop, List.length_replicate]
  exact beq_self_eq_true _

theorem saltOf_bcryptHashpw (pw : String) (s : Nat) :
    ((bcryptHashpw pw s).data.takeWhile (fun c => c == '+')).length = s := by
  rw [bcryptHashpw_data, takeWhile_plus_stop, List.length_replicate]

theorem escapeChar_safe (a : Char) :
    (escapeChar a == ',') = false ∧ (escapeChar a).isWhitespace = false := by
  unfold escapeChar
  by_cases hb : (a == ',' || a == '+' || a == '$' || a.isWhitespace) = true
  · rw [if_pos hb]
    exact ⟨rfl, rfl⟩
  · rw [if_neg hb]
    simp only [Bool.or_eq_true, beq_iff_eq, not_or] at hb
    obtain ⟨⟨⟨h1, _⟩, _⟩, h4⟩ := hb
    constructor
    · exact beq_eq_false_iff_ne.mpr h1
    · exact Bool.eq_false_iff.mpr h4

theorem hash_chars_safe (pw : String) (salt : Nat) :
    ∀ c ∈ (bcryptHashpw pw salt).data,
      (c == ',') = false ∧ c.isWhitespace = false := by
  intro c hc
  rw [bcryptHashpw_data] at hc
  rcases List.mem_append.mp hc with h1 | h2
  · rw [List.eq_of_mem_replicate h1]
    exact ⟨rfl, rfl⟩
  · rcases List.mem_cons.mp h2 with h3 | h4
    · rw [h3]
      exact ⟨rfl, rfl⟩
    · obtain ⟨d, _, hd⟩ := List.mem_map.mp h4
      rw [← hd]
      exact escapeChar_safe d

theorem pySplit_record (u h : String)
    (hu : ∀ c ∈ u.data, (c == ',') = false)
    (hh : ∀ c ∈ h.data, (c == ',') = false) :
    pySplit ',' (u ++ "," ++ h) = [u, h] := by
  unfold pySplit
  have hd : (u ++ "," ++ h).data = u.data ++ ',' :: h.data := by
    rw [string_data_append, string_data_append, List.append_assoc]
    rfl
  rw [hd, splitCharAux_append ',' u.data h.data hu,
    splitCharAux_no_sep ',' h.data hh]
  simp [string_mk_data]

/-! ## Helper lemmas on the credential-store scan -/

theorem user_exists_loop_append_of_ok_false (u : String) (lines : List String)
    (l : String) (h : user_exists_loop u lines = .ok false) :
    user_exists_loop u (lines ++ [l]) = user_exists_loop u [l] := by
  induction lines with
  | nil => rfl
  | cons line rest ih =>
    rw [List.cons_append]
    cases e : unpack2 (pySplit ',' (pyStrip line)) with
    | error err => simp [user_exists_loop, e] at h
    | ok pr =>
      obtain ⟨a, b⟩ := pr
      simp only [user_exists_loop, e] at h ⊢
      by_cases hm : (a == u) = true
      · rw [if_pos hm] at h
        simp at h
      · rw [if_neg hm] at h ⊢
        exact ih h

theorem login_loop_append_of_not_found (u p : String) (lines : List String)
    (l : String) (h : user_exists_loop u lines = .ok false) :
    login_loop u p (lines ++ [l]) = login_loop u p [l] := by
  induction lines with
  | nil => rfl
  | cons line rest ih =>
    rw [List.cons_append]
    cases e : unpack2 (pySplit ',' (pyStrip line)) with
    | error err => simp [user_exists_loop, e] at h
    | ok pr =>
      obtain ⟨a, b⟩ := pr
      simp only [user_exists_loop, e] at h
      simp only [login_loop, e]
      by_cases hm : (a == u) = true
      · rw [if_pos hm] at h
        simp at h
      · rw [if_neg hm] at h ⊢
        exact ih h

/-! ## Claim theorems: credential store -/

/-- C1: for every password P and every salt that the generator may return,
verify_password of P against hash_password of P succeeds. -/
theorem verify_hash_roundtrip (pw : String) (salt : Nat) :
    verify_password pw (hash_password pw salt) = true :=
  bcrypt_roundtrip pw salt

/-- C2: hashing the same plaintext under two different salts, as two calls
with a randomized per-call salt produce, yields different hash strings. -/
theorem hash_password_salt_injective (pw : String) (s1 s2 : Nat)
    (h : s1 ≠ s2) : hash_password pw s1 ≠ hash_password pw s2 := by
  intro he
  apply h
  have h1 := saltOf_bcryptHashpw pw s1
  have h2 := saltOf_bcryptHashpw pw s2
  have he' : bcryptHashpw pw s1 = bcryptHashpw pw s2 := he
  rw [he'] at h1
  exact h1.symm.trans h2

theorem hash_password_salt_injective_w :
    hash_password "secret" 0 ≠ hash_password "secret" 1 :=
  hash_password_salt_injective "secret" 0 1 (by decide)

/-- C7: against an absent user store login_user reports the distinct
no-users-yet outcome, while an existing store without the requested
username reports the username-not-found outcome; the two outcomes are
different values. -/
theorem login_user_no_users_yet (u p : String) :
    login_user none u p = .ok LoginResult.noUsersYet ∧
    login_user (some []) u p = .ok LoginResult.userNotFound ∧
    LoginResult.noUsersYet ≠ LoginResult.userNotFound :=
  ⟨rfl, rfl, fun h => nomatch h⟩

theorem line_chars_safe (u p1 : String) (s1 : Nat)
    (hu : ∀ c ∈ u.data, (c == ',') = false ∧ c.isWhitespace = false) :
    ∀ c ∈ (u ++ "," ++ hash_password p1 s1).data,
      c.isWhitespace = false := by
  intro c hc
  rw [string_data_append, string_data_append] at hc
  rcases List.mem_append.mp hc with hc1 | hc2
  · rcases List.mem_append.mp hc1 with hcu | hcm
    · exact (hu c hcu).2
    · rcases List.mem_singleton.mp hcm with h
      rw [h]
      rfl
  · exact (hash_chars_safe p1 s1 c hc2).2

/-- C3: once a registration for a username has succeeded, a second
register_user call for the same username reports the already-exists
failure, appends nothing to the store, and the stored record still
verifies against the originally registered password.  The username
hypothesis states that it contains neither the comma delimiter of the
storage format nor whitespace, which is what makes it representable as the
username field of a stored record. -/
theorem register_user_duplicate (store : Option (List String))
    (u p1 : String) (s1 : Nat) (p2 : String) (s2 : Nat)
    (store1 : Option (List String))
    (hreg : register_user store u p1 s1 = .ok (true, store1))
    (hu : ∀ c ∈ u.data, (c == ',') = false ∧ c.isWhitespace = false) :
    register_user store1 u p2 s2 = .ok (false, store1) ∧
    login_user store1 u p1 = .ok LoginResult.success := by
  cases hex : user_exists store u with
  | error err => simp [register_user, hex] at hreg
  | ok b =>
    cases b with
    | true => simp [register_user, hex] at hreg
    | false =>
      simp only [register_user, hex] at hreg
      have hstore1 : store1 =
          some (store.getD [] ++ [u ++ "," ++ hash_password p1 s1]) := by
        cases hreg
        rfl
      have hloop0 : user_exists_loop u (store.getD []) = .ok false := by
        cases store with
        | none => rfl
        | some lines => exact hex
      have hstrip : pyStrip (u ++ "," ++ hash_password p1 s1) =
          u ++ "," ++ hash_password p1 s1 :=
        pyStrip_of_no_ws _ (line_chars_safe u p1 s1 hu)
      have hsplitline : pySplit ',' (u ++ "," ++ hash_password p1 s1) =
          [u, hash_password p1 s1] :=
        pySplit_record u (hash_password p1 s1)
          (fun c hc => (hu c hc).1)
          (fun c hc => (hash_chars_safe p1 s1 c hc).1)
      have hone_ex : user_exists_loop u [u ++ "," ++ hash_password p1 s1] =
          .ok true := by
        simp only [user_exists_loop, hstrip, hsplitline, unpack2]
        rw [if_pos (beq_self_eq_true u)]
      have hone_login :
          login_loop u p1 [u ++ "," ++ hash_password p1 s1] =
            .ok LoginResult.success := by
        simp only [login_loop, hstrip, hsplitline, unpack2]
        rw [if_pos (beq_self_eq_true u),
          if_pos (show verify_password p1 (hash_password p1 s1) = true from
            bcrypt_roundtrip p1 s1)]
      have hex1 : user_exists store1 u = .ok true := by
        rw [hstore1]
        show user_exists_loop u
          (store.getD [] ++ [u ++ "," ++ hash_password p1 s1]) = .ok true
        rw [user_exists_loop_append_of_ok_false u (store.getD []) _ hloop0]
        exact hone_ex
      constructor
      · simp only [register_user, hex1]
      · rw [hstore1]
        show login_loop u p1
          (store.getD [] ++ [u ++ "," ++ hash_password p1 s1]) =
            .ok LoginResult.success
        rw [login_loop_append_of_not_found u p1 (store.getD []) _ hloop0]
        exact hone_login

theorem register_user_duplicate_w :
    register_user (some ["a,$"]) "a" "b" 1 = .ok (false, some ["a,$"]) ∧
    login_user (some ["a,$"]) "a" "" = .ok LoginResult.success :=
  register_user_duplicate none "a" "" 0 "b" 1 (some ["a,$"]) rfl (by decide)

theorem unpack2_not_two (l : List String) (h : ∀ a b, l ≠ [a, b]) :
    unpack2 l = .error AuthError.valueError := by
  match l with
  | [] => rfl
  | [a] => rfl
  | [a, b] => exact absurd rfl (h a b)
  | a :: b :: c :: t => rfl

theorem user_exists_loop_malformed (u : String) (good : List String) :
    ∀ (bad : String) (rest : List String),
    (∀ line ∈ good,
      ∃ a b, pySplit ',' (pyStrip line) = [a, b] ∧ (a == u) = false) →
    (∀ a b, pySplit ',' (pyStrip bad) ≠ [a, b]) →
    user_exists_loop u (good ++ bad :: rest) = .error AuthError.valueError := by
  induction good with
  | nil =>
    intro bad rest _ hb
    simp only [List.nil_append, user_exists_loop, unpack2_not_two _ hb]
  | cons g t ih =>
    intro bad rest hg hb
    obtain ⟨a, b, hab, hne⟩ := hg g (by simp)
    rw [List.cons_append]
    simp only [user_exists_loop, hab, unpack2]
    rw [if_neg (by rw [hne]; simp)]
    exact ih bad rest (fun line hl => hg line (by simp [hl])) hb

theorem login_loop_malformed (u p : String) (good : List String) :
    ∀ (bad : String) (rest : List String),
    (∀ line ∈ good,
      ∃ a b, pySplit ',' (pyStrip line) = [a, b] ∧ (a == u) = false) →
    (∀ a b, pySplit ',' (pyStrip bad) ≠ [a, b]) →
    login_loop u p (good ++ bad :: rest) = .error AuthError.valueError := by
  induction good with
  | nil =>
    intro bad rest _ hb
    simp only [List.nil_append, login_loop, unpack2_not_two _ hb]
  | cons g t ih =>
    intro bad rest hg hb
    obtain ⟨a, b, hab, hne⟩ := hg g (by simp)
    rw [List.cons_append]
    simp only [login_loop, hab, unpack2]
    rw [if_neg (by rw [hne]; simp)]
    exact ih bad rest (fun line hl => hg line (by simp [hl])) hb

/-- C10 counterexample: a store whose second line has three comma-separated
fields, while its first line is a well-formed matching record; both
user_exists and login_user return normally without ever reaching the
malformed line, so it is false that they raise whenever any line fails to
split into two fields. -/
theorem malformed_line_after_match_no_error :
    pySplit ',' (pyStrip "b,c,d") = ["b", "c", "d"] ∧
    user_exists (some ["a,$", "b,c,d"]) "a" = .ok true ∧
    login_user (some ["a,$", "b,c,d"]) "a" "" = .ok LoginResult.success :=
  ⟨rfl, rfl, rfl⟩

/-- C10 amended: user_exists and login_user raise the unpacking ValueError
exactly as soon as the scan reaches a line that does not split on the comma
into two fields, which happens whenever every earlier line is well formed
with a username field different from the queried one; three-field records
such as those written for the migration script therefore raise whenever
they are reached before a match. -/
theorem user_store_malformed_raises (good : List String) (bad : String)
    (rest : List String) (u p : String)
    (hg : ∀ line ∈ good,
      ∃ a b, pySplit ',' (pyStrip line) = [a, b] ∧ (a == u) = false)
    (hb : ∀ a b, pySplit ',' (pyStrip bad) ≠ [a, b]) :
    user_exists (some (good ++ bad :: rest)) u = .error AuthError.valueError ∧
    login_user (some (good ++ bad :: rest)) u p = .error AuthError.valueError :=
  ⟨user_exists_loop_malformed u good bad rest hg hb,
   login_loop_malformed u p good bad rest hg hb⟩

theorem user_store_malformed_raises_w :
    user_exists (some ["alice,1", "x,y,z"]) "bob" = .error AuthError.valueError ∧
    login_user (some ["alice,1", "x,y,z"]) "bob" "pw" = .error AuthError.valueError :=
  user_store_malformed_raises ["alice,1"] "x,y,z" [] "bob" "pw"
    (by
      intro line hl
      rw [List.mem_singleton.mp hl]
      exact ⟨"alice", "1", rfl, rfl⟩)
    (by
      intro a b h
      have e : pySplit ',' (pyStrip "x,y,z") = ["x", "y", "z"] := rfl
      rw [e] at h
      simp at h)

/-! ## Helper lemmas on the batching loop -/

theorem flushBatches_flatten {α : Type} (bs : Nat) (rows : List α) :
    ∀ batch, (flushBatches bs rows batch).flatten = batch ++ rows := by
  induction rows with
  | nil =>
    intro batch
    cases batch with
    | nil => rfl
    | cons x t => simp [flushBatches]
  | cons r rest ih =>
    intro batch
    by_cases h : bs ≤ (batch ++ [r]).length
    · simp only [flushBatches, if_pos h, List.flatten_cons, ih]
      simp
    · simp only [flushBatches, if_neg h, ih]
      simp

theorem flushBatches_sumLen {α : Type} (bs : Nat) (rows : List α) :
    ∀ batch,
      ((flushBatches bs rows batch).map List.length).sum =
        batch.length + rows.length := by
  induction rows with
  | nil =>
    intro batch
    cases batch with
    | nil => rfl
    | cons x t => simp [flushBatches]
  | cons r rest ih =>
    intro batch
    by_cases h : bs ≤ (batch ++ [r]).length
    · simp only [flushBatches, if_pos h, List.map_cons, List.sum_cons, ih]
      simp
      omega
    · simp only [flushBatches, if_neg h, ih]
      simp
      omega

theorem runBatchInsert_eq {α : Type} (bs : Nat) (rows : List α) :
    runBatchInsert bs rows = (rows.length, flushBatches bs rows []) := by
  show (((flushBatches bs rows []).map List.length).sum,
      flushBatches bs rows []) = (rows.length, flushBatches bs rows [])
  rw [flushBatches_sumLen, List.length_nil, Nat.zero_add]

/-! ## Claim theorems: bulk loader -/

/-- C4: with a header row and inferred columns, insert_from_csv converts
every non-blank data record to a value tuple in column order, emits them
through the batching loop so that the emitted batches concatenate back to
exactly the data tuples, and returns their total number; the concrete
three-row file with batch size two is flushed once at two rows and once at
one row, returning three. -/
theorem insert_from_csv_batching (hdr : List String)
    (data : List (List String)) (bs : Nat) (hhdr : hdr ≠ []) :
    (∃ flushes,
      insert_from_csv (hdr :: data) none true bs =
        .ok (((data.filter (fun r => !r.isEmpty)).map (csvRowTuple hdr)).length,
          flushes) ∧
      flushes.flatten =
        (data.filter (fun r => !r.isEmpty)).map (csvRowTuple hdr)) ∧
    insert_from_csv [["id", "name"], ["1", "a"], ["2", "b"], ["3", "c"]]
        none true 2 =
      .ok (3, [[[some "1", some "a"], [some "2", some "b"]],
               [[some "3", some "c"]]]) := by
  constructor
  · refine ⟨flushBatches bs
      ((data.filter (fun r => !r.isEmpty)).map (csvRowTuple hdr)) [], ?_, ?_⟩
    · obtain ⟨c, t, rfl⟩ : ∃ c t, hdr = c :: t := by
        cases hdr with
        | nil => exact absurd rfl hhdr
        | cons c t => exact ⟨c, t, rfl⟩
      simp only [insert_from_csv, Option.isNone_none, Bool.and_true, if_true]
      rw [show ((c :: t) :: data).headD [] = c :: t from rfl]
      rw [if_neg (by simp)]
      rw [show ((c :: t) :: data).tail = data from rfl]
      rw [runBatchInsert_eq]
    · rw [flushBatches_flatten]
      rfl
  · rfl

theorem insert_from_csv_batching_w :
    (∃ flushes,
      insert_from_csv [["id"]] none true 7 = .ok (0, flushes) ∧
      flushes.flatten = []) ∧
    insert_from_csv [["id", "name"], ["1", "a"], ["2", "b"], ["3", "c"]]
        none true 2 =
      .ok (3, [[[some "1", some "a"], [some "2", some "b"]],
               [[some "3", some "c"]]]) :=
  insert_from_csv_batching ["id"] [] 7 (by simp)

/-- C6: evaluating insert_from_csv at a two-record file whose first record
is the header shows that with has_header true and an explicit column list
the first record is streamed as data and inserted (two rows, the header
tuple among them), while with the column list omitted the header is
consumed as the header and only the one data record is inserted. -/
theorem insert_from_csv_header_as_data :
    insert_from_csv [["id", "name"], ["1", "a"]] (some ["id", "name"]) true 500 =
      .ok (2, [[[some "id", some "name"], [some "1", some "a"]]]) ∧
    insert_from_csv [["id", "name"], ["1", "a"]] none true 500 =
      .ok (1, [[[some "1", some "a"]]]) :=
  ⟨rfl, rfl⟩

/-- C5: when a JSON element lacks one of the inferred columns, dict.get
yields none for that column, the element loop still succeeds, producing for
each object exactly its tuple of optional values in column order, and on
the concrete two-element input the second row is inserted with a null
name. -/
theorem insert_from_json_missing_key_null :
    (∀ (kvs : List (String × JsonVal)) (c : String),
        (∀ p ∈ kvs, (p.1 == c) = false) → dictFind kvs c = none) ∧
    (∀ (cols : List String) (objs : List (List (String × JsonVal))),
        collectRows cols (objs.map JsonVal.obj) =
          .ok (objs.map (fun kvs => cols.map (dictFind kvs)))) ∧
    insert_from_json
        (JsonVal.arr [JsonVal.obj [("id", JsonVal.num 1), ("name", JsonVal.str "a")],
                      JsonVal.obj [("id", JsonVal.num 2)]]) none 500 =
      .ok (2, [[[some (JsonVal.num 1), some (JsonVal.str "a")],
                [some (JsonVal.num 2), none]]]) := by
  refine ⟨?_, ?_, rfl⟩
  · intro kvs c h
    unfold dictFind
    rw [List.find?_eq_none.mpr (fun p hp => by rw [h p hp]; simp)]
    rfl
  · intro cols objs
    induction objs with
    | nil => rfl
    | cons kvs t ih => simp only [List.map_cons, collectRows, ih]

theorem insert_from_json_missing_key_null_w :
    dictFind [("id", JsonVal.num 2)] "name" = none ∧
    collectRows ["id"] [JsonVal.obj [("id", JsonVal.num 2)]] =
      .ok [[some (JsonVal.num 2)]] ∧
    insert_from_json
        (JsonVal.arr [JsonVal.obj [("id", JsonVal.num 1), ("name", JsonVal.str "a")],
                      JsonVal.obj [("id", JsonVal.num 2)]]) none 500 =
      .ok (2, [[[some (JsonVal.num 1), some (JsonVal.str "a")],
                [some (JsonVal.num 2), none]]]) :=
  ⟨insert_from_json_missing_key_null.1 [("id", JsonVal.num 2)] "name" (by decide),
   insert_from_json_missing_key_null.2.1 ["id"] [[("id", JsonVal.num 2)]],
   insert_from_json_missing_key_null.2.2⟩

theorem all_eq_not_any_not {α : Type} (l : List α) (p : α → Bool) :
    l.all p = !(l.any fun a => !p a) := by
  induction l with
  | nil => rfl
  | cons a t ih => simp [List.all_cons, List.any_cons, ih, Bool.not_or]

theorem collectRows_isOk (cols : List String) (l : List JsonVal) :
    exceptIsOk (collectRows cols l) = l.all JsonVal.isObj := by
  induction l with
  | nil => rfl
  | cons v t ih =>
    cases v with
    | obj kvs =>
      simp only [collectRows, List.all_cons]
      cases e : collectRows cols t with
      | error err =>
        rw [e] at ih
        simp [e, exceptIsOk, JsonVal.isObj, ← ih]
      | ok rs =>
        rw [e] at ih
        simp [e, exceptIsOk, JsonVal.isObj, ← ih]
    | null => simp [collectRows, exceptIsOk, JsonVal.isObj]
    | bool b => simp [collectRows, exceptIsOk, JsonVal.isObj]
    | num n => simp [collectRows, exceptIsOk, JsonVal.isObj]
    | str s => simp [collectRows, exceptIsOk, JsonVal.isObj]
    | arr xs => simp [collectRows, exceptIsOk, JsonVal.isObj]

/-- C9: a single-object root is treated as a one-element collection and
inserts exactly one row, and insert_from_json raises a format error exactly
when the root is neither an object nor an array or when some array element
is not an object. -/
theorem insert_from_json_root_shape :
    (∀ (kvs : List (String × JsonVal)) (cols : Option (List String)) (bs : Nat),
        ∃ fl, insert_from_json (JsonVal.obj kvs) cols bs = .ok (1, fl)) ∧
    (∀ (data : JsonVal) (cols : Option (List String)) (bs : Nat),
        exceptIsOk (insert_from_json data cols bs) = !jsonFormatBad data) := by
  constructor
  · intro kvs cols bs
    cases cols with
    | none =>
      refine ⟨flushBatches bs [(kvs.map (fun p => p.1)).map (dictFind kvs)] [],
        ?_⟩
      simp only [insert_from_json, jsonDataList, jsonColumns, collectRows,
        List.isEmpty_cons, Bool.false_eq_true, if_false, List.headD]
      rw [runBatchInsert_eq]
      rfl
    | some c =>
      refine ⟨flushBatches bs [c.map (dictFind kvs)] [], ?_⟩
      simp only [insert_from_json, jsonDataList, jsonColumns, collectRows,
        List.isEmpty_cons, Bool.false_eq_true, if_false]
      rw [runBatchInsert_eq]
      rfl
  · intro data cols bs
    cases data with
    | null => rfl
    | bool b => rfl
    | num n => rfl
    | str s => rfl
    | obj kvs =>
      cases cols with
      | none =>
        simp [insert_from_json, jsonDataList, jsonColumns, collectRows,
          exceptIsOk, jsonFormatBad]
      | some c =>
        simp [insert_from_json, jsonDataList, jsonColumns, collectRows,
          exceptIsOk, jsonFormatBad]
    | arr xs =>
      cases xs with
      | nil => cases cols <;> rfl
      | cons x rest =>
        have hall := collectRows_isOk
        cases cols with
        | some c =>
          simp only [insert_from_json, jsonDataList, jsonColumns,
            List.isEmpty_cons, Bool.false_eq_true, if_false, jsonFormatBad]
          rw [← all_eq_not_any_not]
          cases e : collectRows c (x :: rest) with
          | error err =>
            have h := collectRows_isOk c (x :: rest)
            rw [e] at h
            simp only [e, exceptIsOk]
            exact h
          | ok rows =>
            have h := collectRows_isOk c (x :: rest)
            rw [e] at h
            simp only [e, exceptIsOk]
            exact h
        | none =>
          cases x with
          | obj kvs =>
            simp only [insert_from_json, jsonDataList, jsonColumns,
              List.isEmpty_cons, Bool.false_eq_true, if_false, List.headD,
              jsonFormatBad]
            rw [← all_eq_not_any_not]
            cases e : collectRows (kvs.map (fun p => p.1)) (JsonVal.obj kvs :: rest) with
            | error err =>
              have h := collectRows_isOk (kvs.map (fun p => p.1))
                (JsonVal.obj kvs :: rest)
              rw [e] at h
              simp only [e, exceptIsOk]
              exact h
            | ok rows =>
              have h := collectRows_isOk (kvs.map (fun p => p.1))
                (JsonVal.obj kvs :: rest)
              rw [e] at h
              simp only [e, exceptIsOk]
              exact h
          | null =>
            simp [insert_from_json, jsonDataList, jsonColumns, exceptIsOk,
              jsonFormatBad, JsonVal.isObj]
          | bool b =>
            simp [insert_from_json, jsonDataList, jsonColumns, exceptIsOk,
              jsonFormatBad, JsonVal.isObj]
          | num n =>
            simp [insert_from_json, jsonDataList, jsonColumns, exceptIsOk,
              jsonFormatBad, JsonVal.isObj]
          | str s =>
            simp [insert_from_json, jsonDataList, jsonColumns, exceptIsOk,
              jsonFormatBad, JsonVal.isObj]
          | arr ys =>
            simp [insert_from_json, jsonDataList, jsonColumns, exceptIsOk,
              jsonFormatBad, JsonVal.isObj]

/-- C8: run_sql branches on the leading keyword of the stripped,
lowercased statement; for a read query with fetch requested it returns the
full result set materialized as field-name-to-value mappings built by the
row factory and does not commit, and in every other case it commits the
transaction and returns the affected row count. -/
theorem run_sql_fetch_or_commit {α : Type} (out : ExecOutcome α)
    (sql : String) (params : Option (List α)) (fetch : Bool) :
    (isSelectSql sql = true → fetch = true →
      run_sql out sql params fetch =
        (RunSqlResult.rows (out.resultRows.map (_row_factory out.description)),
          false)) ∧
    (¬(isSelectSql sql = true ∧ fetch = true) →
      run_sql out sql params fetch = (RunSqlResult.count out.rowcount, true)) := by
  constructor
  · intro hsel hf
    unfold run_sql
    rw [if_pos (by rw [hsel, hf]; rfl)]
  · intro hnot
    unfold run_sql
    rw [if_neg (by
      intro hand
      exact hnot ⟨(Bool.and_eq_true _ _).mp hand |>.1,
        (Bool.and_eq_true _ _).mp hand |>.2⟩)]

theorem run_sql_fetch_or_commit_w :
    run_sql (⟨["a"], [[1]], 1⟩ : ExecOutcome Nat) "  SELECT 1" none true =
      (RunSqlResult.rows [[("a", 1)]], false) ∧
    run_sql (⟨["a"], [[1]], 1⟩ : ExecOutcome Nat) "DELETE FROM t" none false =
      (RunSqlResult.count 1, true) :=
  ⟨(run_sql_fetch_or_commit (⟨["a"], [[1]], 1⟩ : ExecOutcome Nat)
      "  SELECT 1" none true).1 (by decide) rfl,
   (run_sql_fetch_or_commit (⟨["a"], [[1]], 1⟩ : ExecOutcome Nat)
      "DELETE FROM t" none false).2 (by decide)⟩
